import Mathlib

/-!
Verification development for the object-commander repository: a shallow
embedding in Lean 4 of the dependency-injection container (container.go)
and the bootstrap coordinator (bootstrap.go), together with theorems that
settle the frozen claims about the code.

Modelling notes, to be read against the Go source:

* Go maps are modelled by association lists (first binding wins on lookup,
  assignment replaces the first binding or appends a fresh one).  Go slices
  stored in maps are modelled by the list held in the association list; the
  in-place mutation performed by the `pop` helper on a shared backing array
  is modelled precisely (see `popView`).
* `reflect.Type` values are modelled by the abstract type `GoType` (a name),
  and `Identity` is a string, as in the source.
* A `Builder` value is modelled by its reflective interface as used by the
  code: its declared parameter types (`fn.In i`), its single return type
  (`fn.Out 0`), and its body, an arbitrary function from the resolved
  arguments to a payload.  The code restricts builders with
  `checkBuilderSignature` to single-return functions; the model bakes that
  restriction into the `Builder` structure, so the check always succeeds
  and is not reified.  Variadic builders are not modelled (no claim touches
  them).
* Each builder invocation (the `invoker` call in `bind`) appends the
  builder tag to an event log and stamps the produced value with a fresh
  serial number, the length of the log at invocation time.  The log models
  observable builder side effects exactly the way the repository tests do
  (the `loadtracker` / `loadedDefs` accumulators), and the serial plays the
  role of the allocation identity of the produced instance: values produced
  by distinct invocations carry distinct serials.
* The resolution functions (`Get`, `create`, `bind`, `buildParams`,
  `GetByType`) recurse through the dependency graph without any cycle
  detection, exactly as in the source; the recursion is bounded by a fuel
  parameter, and exhausting the fuel models the divergence of the Go code
  (`GoError.outOfFuel`).  All claims are about runs that terminate, where
  some sufficient fuel exists.
* Go panics (fatal aborts) are modelled by the `Outcome.panicked`
  constructor.  The container RWMutex matters for exactly one entry point:
  `Create` takes the exclusive lock and holds it (defer) while
  `create`/`bind`/`buildParams` run, and a dependency resolution inside
  that region calls `Get`, whose `c.RLock()` on the same non-reentrant
  mutex blocks forever.  The lock discipline is modelled explicitly by the
  lock-aware functions (`getG`, `createG`, `bindG`, `buildParamsG`,
  `getByTypeG`, `CreateGo`), which thread a flag recording whether the
  goroutine holds the exclusive lock and report `Blocking.deadlock` where
  the source would block on itself.  The plain resolution functions
  (`Get`, `create`, `bind`, `buildParams`, `GetByType`) are the held=false
  fragment of that semantics — `lockFreeAgrees` proves the two coincide —
  which is the real execution for every caller except `Create`
  (`Get` releases its read lock before `create` runs and re-acquires the
  write lock only for the final store write, so nested resolutions inside
  `Get` hold no lock).
-/

namespace ObjectCommander

/-- Identity is a unique name for container resources, as in the source. -/
abbrev Identity := String

/-- A reflective Go type, identified by its name. -/
abbrev GoType := String

/-- A constructed resource instance: the payload computed by the builder
body together with the serial number of the builder invocation that
produced it (the allocation identity of the instance). -/
structure Value where
  payload : String
  serial : Nat
deriving DecidableEq, Repr

/-- The error taxonomy of the code: the dedicated AlreadyRegisteredError
struct, the formatted not-registered and no-instance errors, fuel
exhaustion (modelling divergence of the unbounded recursion), and other
error values. -/
inductive GoError where
  | alreadyRegistered (msg : String)
  | notRegistered (name : Identity)
  | noInstanceOfType (t : GoType)
  | outOfFuel
  | custom (msg : String)
deriving DecidableEq, Repr

/-- The type assertion performed by Boot on a Start error. -/
def GoError.isAlreadyRegistered : GoError → Bool
  | .alreadyRegistered _ => true
  | _ => false

/-- A builder: declared parameter types, declared return type, an
observable tag recorded on each invocation, and the body computing the
payload from the resolved arguments. -/
structure Builder where
  tag : String
  params : List GoType
  retType : GoType
  body : List Value → String

/-- Association list lookup: the value bound to the first matching key. -/
def lookupA {κ α : Type} [DecidableEq κ] (l : List (κ × α)) (k : κ) :
    Option α :=
  match l with
  | [] => none
  | (k1, v) :: rest => if k1 = k then some v else lookupA rest k

/-- Association list update, modelling Go map assignment: replace the
first binding for the key, or append a fresh binding. -/
def insertA {κ α : Type} [DecidableEq κ] (l : List (κ × α)) (k : κ) (v : α) :
    List (κ × α) :=
  match l with
  | [] => [(k, v)]
  | (k1, v1) :: rest =>
    if k1 = k then (k1, v) :: rest else (k1, v1) :: insertA rest k v

/-- Association list deletion, modelling Go delete. -/
def eraseA {κ α : Type} [DecidableEq κ] (l : List (κ × α)) (k : κ) :
    List (κ × α) :=
  match l with
  | [] => []
  | (k1, v1) :: rest =>
    if k1 = k then rest else (k1, v1) :: eraseA rest k

/-- Reading a slice-valued map entry: a missing entry is the nil slice. -/
def bucketOf (m : List (GoType × List Identity)) (t : GoType) :
    List Identity :=
  match m with
  | [] => []
  | (t1, b) :: rest => if t1 = t then b else bucketOf rest t

/-- Writing a slice-valued map entry. -/
def setBucket (m : List (GoType × List Identity)) (t : GoType)
    (b : List Identity) : List (GoType × List Identity) :=
  match m with
  | [] => [(t, b)]
  | (t1, b1) :: rest =>
    if t1 = t then (t1, b) :: rest else (t1, b1) :: setBucket rest t b

/-- The Container state: the builder definitions, the type index and the
singleton store, mirroring the three maps of the Go struct. -/
structure Container where
  defs : List (Identity × Builder)
  typeToIdentity : List (GoType × List Identity)
  store : List (Identity × Value)

/-- NewContainer: all three maps empty. -/
def NewContainer : Container :=
  { defs := [], typeToIdentity := [], store := [] }

/-- The world threaded through effectful operations: the container, the
builder-invocation log (observable side effects of builders, as in the
repository tests), and a heap of pointer targets used by Assign. -/
structure World where
  c : Container
  log : List String
  heap : List (Nat × Value)

/-- The outcome of an operation that can abort the process: a normal
result or a Go panic carrying the panicked error. -/
inductive Outcome (α : Type) where
  | ok (a : α)
  | panicked (e : GoError)
deriving Repr

/-- Register adds the definition and appends the identity to the
type-index bucket of the builder return type, after failing fast on a
duplicate identity.  Pure metadata operation, the builder is not run. -/
def Register (c : Container) (name : Identity) (build : Builder) :
    Container × Option GoError :=
  match lookupA c.defs name with
  | some _ =>
    (c, some (GoError.alreadyRegistered (name ++ " was already registered")))
  | none =>
    let retType := build.retType
    ({ c with
        defs := insertA c.defs name build
        typeToIdentity :=
          setBucket c.typeToIdentity retType
            (bucketOf c.typeToIdentity retType ++ [name]) },
     none)

/-- The index located by the loop of the Go pop helper: the first
occurrence of the target, or 0 when the target is absent. -/
def popIndex (source : List Identity) (target : Identity) : Nat :=
  match source.indexOf? target with
  | some i => i
  | none => 0

/-- The bucket seen through the map slice header after the Go pop helper
ran on it.  pop performs append(source[:i], source[i+1:]...), which shifts
the elements after index i one slot to the left inside the shared backing
array and returns a slice one shorter, but Unregister DISCARDS that return
value, so the map still views the original length: positions i .. n-2 now
hold the old positions i+1 .. n-1 and position n-1 keeps its old content.
-/
def popView (source : List Identity) (target : Identity) : List Identity :=
  let i := popIndex source target
  source.take i ++ source.drop (i + 1) ++ source.drop (source.length - 1)

/-- Unregister, exactly as in the source: it reads the (possibly missing)
builder, takes the return type of its reflective type, runs pop on the
bucket (in place, discarding the result), and deletes the definition and
the cached instance.  When the identity is absent, the builder read is the
nil interface, reflect.TypeOf gives the nil Type, and calling Out on it
panics with a nil pointer dereference.  When the bucket is empty, the
slice expression source[1:] inside pop panics with a bounds error. -/
def Unregister (c : Container) (name : Identity) : Outcome Container :=
  match lookupA c.defs name with
  | none =>
    Outcome.panicked (GoError.custom
      "runtime error: invalid memory address or nil pointer dereference")
  | some builder =>
    let retType := builder.retType
    let bucket := bucketOf c.typeToIdentity retType
    match bucket with
    | [] => Outcome.panicked (GoError.custom
        "runtime error: slice bounds out of range")
    | _ :: _ =>
      Outcome.ok
        { defs := eraseA c.defs name
          typeToIdentity :=
            setBucket c.typeToIdentity retType (popView bucket name)
          store := eraseA c.store name }

/-- FlushALL resets the three container maps. -/
def FlushALL (_c : Container) : Container :=
  { defs := [], typeToIdentity := [], store := [] }

mutual

/-- Get returns the cached instance when present, and otherwise builds it
through create, caches the result under the identity and returns it.
Exhausted fuel (modelling divergence) can only be reported on the cache
miss path, where the recursion would descend. -/
def Get : Nat → World → Identity → World × Except GoError Value
  | 0, w, name =>
    (match lookupA w.c.store name with
     | some obj => (w, Except.ok obj)
     | none => (w, Except.error GoError.outOfFuel))
  | m + 1, w, name =>
    (match lookupA w.c.store name with
     | some obj => (w, Except.ok obj)
     | none =>
       match create m w name with
       | (w1, Except.error e) => (w1, Except.error e)
       | (w1, Except.ok ret) =>
         ({ w1 with c := { w1.c with store := insertA w1.c.store name ret } },
          Except.ok ret))

/-- create (the unexported helper): looks up the definition and binds the
builder; unknown identities give the was-not-registered error. -/
def create : Nat → World → Identity → World × Except GoError Value
  | 0, w, name =>
    (match lookupA w.c.defs name with
     | none => (w, Except.error (GoError.notRegistered name))
     | some _ => (w, Except.error GoError.outOfFuel))
  | m + 1, w, name =>
    (match lookupA w.c.defs name with
     | none => (w, Except.error (GoError.notRegistered name))
     | some builder => bind m w builder)
termination_by structural fuel => fuel

/-- bind: builds the arguments for the builder from the container and
invokes it; the invocation appends the builder tag to the log and stamps
the value with the invocation serial. -/
def bind : Nat → World → Builder → World × Except GoError Value
  | 0, w, _ => (w, Except.error GoError.outOfFuel)
  | m + 1, w, b =>
    (match buildParams m w b.params none with
     | (w1, Except.error e) => (w1, Except.error e)
     | (w1, Except.ok args) =>
       ({ w1 with log := w1.log ++ [b.tag] },
        Except.ok { payload := b.body args, serial := w1.log.length }))
termination_by structural fuel => fuel

/-- buildParams: one resolved argument per declared parameter.  With no
identities supplied (mode none, the only mode used by bind) each argument
is resolved by its declared type; with identities supplied they are used
positionally, and exhausting them models the index-out-of-range panic of
ids[i] in the source. -/
def buildParams : Nat → World → List GoType → Option (List Identity) →
    World × Except GoError (List Value)
  | _, w, [], _ => (w, Except.ok [])
  | 0, w, _ :: _, _ => (w, Except.error GoError.outOfFuel)
  | m + 1, w, t :: rest, none =>
    (match GetByType m w t with
     | (w1, Except.error e) => (w1, Except.error e)
     | (w1, Except.ok arg) =>
       match buildParams m w1 rest none with
       | (w2, Except.error e) => (w2, Except.error e)
       | (w2, Except.ok args) => (w2, Except.ok (arg :: args)))
  | _ + 1, w, _ :: _, some [] =>
    (w, Except.error (GoError.custom "index out of range"))
  | m + 1, w, _t :: rest, some (i :: irest) =>
    (match Get m w i with
     | (w1, Except.error e) => (w1, Except.error e)
     | (w1, Except.ok arg) =>
       match buildParams m w1 rest (some irest) with
       | (w2, Except.error e) => (w2, Except.error e)
       | (w2, Except.ok args) => (w2, Except.ok (arg :: args)))
termination_by structural fuel _ _ _ => fuel

/-- GetByType: resolves the first identity of the bucket for the type, or
fails when the bucket is empty. -/
def GetByType : Nat → World → GoType → World × Except GoError Value
  | 0, w, t =>
    (match bucketOf w.c.typeToIdentity t with
     | [] => (w, Except.error (GoError.noInstanceOfType t))
     | _ :: _ => (w, Except.error GoError.outOfFuel))
  | m + 1, w, t =>
    (match bucketOf w.c.typeToIdentity t with
     | [] => (w, Except.error (GoError.noInstanceOfType t))
     | id :: _ => Get m w id)
termination_by structural fuel => fuel

end

/-- Create: always re-invokes the builder through create; the store is
neither consulted nor written for the requested identity. -/
def Create (fuel : Nat) (w : World) (name : Identity) :
    World × Except GoError Value :=
  create fuel w name

/-- The target reference handed to Assign: the nil interface, a non-nil
value of a kind without an element type (where reflect Elem panics), or a
pointer to a heap location with its pointee type. -/
inductive TargetRef where
  | nilRef
  | nonPointer (t : GoType)
  | pointer (elemType : GoType) (loc : Nat)

/-- Assign, as in the source: nil targets give an error; a non-nil
non-pointer-like target reaches valueType.Elem(), which panics in
reflection; a pointer target resolves by the first supplied identity or by
the pointee type, propagates resolution errors, and writes the resolved
value through the pointer on success. -/
def Assign (fuel : Nat) (w : World) (target : TargetRef)
    (ids : List Identity) : World × Outcome (Option GoError) :=
  match target with
  | .nilRef =>
    (w, Outcome.ok (some (GoError.custom "input value should not be nil")))
  | .nonPointer _ =>
    (w, Outcome.panicked (GoError.custom "reflect: Elem of invalid type"))
  | .pointer et loc =>
    match ids with
    | i :: _ =>
      match Get fuel w i with
      | (w1, Except.error e) => (w1, Outcome.ok (some e))
      | (w1, Except.ok v) =>
        ({ w1 with heap := insertA w1.heap loc v }, Outcome.ok none)
    | [] =>
      match GetByType fuel w et with
      | (w1, Except.error e) => (w1, Outcome.ok (some e))
      | (w1, Except.ok v) =>
        ({ w1 with heap := insertA w1.heap loc v }, Outcome.ok none)

/-! ### The lock discipline of the container RWMutex

The only nested-lock situation in the source is Create: it takes the
exclusive lock and holds it for the whole call, and resolving a declared
parameter of the builder calls Get, whose first statement is c.RLock() on
the same sync.RWMutex.  That mutex is not reentrant, so the call blocks
forever (with a single goroutine the Go runtime reports a fatal
all-goroutines-asleep deadlock).  The functions below thread a flag, held,
recording whether this goroutine currently holds the exclusive lock, and
place a blocking check exactly at the lock operations of the source. -/

/-- The result of a call under the lock discipline: it either completes,
or blocks forever on a lock the calling goroutine already holds. -/
inductive Blocking (α : Type) where
  | done (a : α)
  | deadlock
deriving DecidableEq, Repr

mutual

/-- Get under the lock discipline.  Its first statement is c.RLock(),
which blocks forever when the goroutine already holds the exclusive lock
(held = true).  When held is false the read lock is acquired and released
around the store check, create runs with no lock held, and the final
c.Lock() guarding the store write is acquired and released here — so the
body below the entry check carries held = false everywhere. -/
def getG : Bool → Nat → World → Identity →
    World × Blocking (Except GoError Value)
  | true, _, w, _ => (w, Blocking.deadlock)
  | false, fuel, w, name =>
    (match lookupA w.c.store name with
     | some obj => (w, Blocking.done (Except.ok obj))
     | none =>
       match fuel with
       | 0 => (w, Blocking.done (Except.error GoError.outOfFuel))
       | m + 1 =>
         match createG false m w name with
         | (w1, Blocking.deadlock) => (w1, Blocking.deadlock)
         | (w1, Blocking.done (Except.error e)) =>
           (w1, Blocking.done (Except.error e))
         | (w1, Blocking.done (Except.ok ret)) =>
           ({ w1 with
              c := { w1.c with store := insertA w1.c.store name ret } },
            Blocking.done (Except.ok ret)))

/-- create under the lock discipline: it performs no lock operation itself
and passes the flag through to bind. -/
def createG : Bool → Nat → World → Identity →
    World × Blocking (Except GoError Value)
  | _, 0, w, name =>
    (match lookupA w.c.defs name with
     | none => (w, Blocking.done (Except.error (GoError.notRegistered name)))
     | some _ => (w, Blocking.done (Except.error GoError.outOfFuel)))
  | held, m + 1, w, name =>
    (match lookupA w.c.defs name with
     | none => (w, Blocking.done (Except.error (GoError.notRegistered name)))
     | some builder => bindG held m w builder)

/-- bind under the lock discipline: no lock operation of its own. -/
def bindG : Bool → Nat → World → Builder →
    World × Blocking (Except GoError Value)
  | _, 0, w, _ => (w, Blocking.done (Except.error GoError.outOfFuel))
  | held, m + 1, w, b =>
    (match buildParamsG held m w b.params none with
     | (w1, Blocking.deadlock) => (w1, Blocking.deadlock)
     | (w1, Blocking.done (Except.error e)) =>
       (w1, Blocking.done (Except.error e))
     | (w1, Blocking.done (Except.ok args)) =>
       ({ w1 with log := w1.log ++ [b.tag] },
        Blocking.done (Except.ok
          { payload := b.body args, serial := w1.log.length })))

/-- buildParams under the lock discipline: no lock operation of its own;
each declared parameter is resolved through getByTypeG or getG, which is
where a held exclusive lock turns into a deadlock. -/
def buildParamsG : Bool → Nat → World → List GoType →
    Option (List Identity) → World × Blocking (Except GoError (List Value))
  | _, _, w, [], _ => (w, Blocking.done (Except.ok []))
  | _, 0, w, _ :: _, _ => (w, Blocking.done (Except.error GoError.outOfFuel))
  | held, m + 1, w, t :: rest, none =>
    (match getByTypeG held m w t with
     | (w1, Blocking.deadlock) => (w1, Blocking.deadlock)
     | (w1, Blocking.done (Except.error e)) =>
       (w1, Blocking.done (Except.error e))
     | (w1, Blocking.done (Except.ok arg)) =>
       match buildParamsG held m w1 rest none with
       | (w2, Blocking.deadlock) => (w2, Blocking.deadlock)
       | (w2, Blocking.done (Except.error e)) =>
         (w2, Blocking.done (Except.error e))
       | (w2, Blocking.done (Except.ok args)) =>
         (w2, Blocking.done (Except.ok (arg :: args))))
  | _, _ + 1, w, _ :: _, some [] =>
    (w, Blocking.done (Except.error (GoError.custom "index out of range")))
  | held, m + 1, w, _t :: rest, some (i :: irest) =>
    (match getG held m w i with
     | (w1, Blocking.deadlock) => (w1, Blocking.deadlock)
     | (w1, Blocking.done (Except.error e)) =>
       (w1, Blocking.done (Except.error e))
     | (w1, Blocking.done (Except.ok arg)) =>
       match buildParamsG held m w1 rest (some irest) with
       | (w2, Blocking.deadlock) => (w2, Blocking.deadlock)
       | (w2, Blocking.done (Except.error e)) =>
         (w2, Blocking.done (Except.error e))
       | (w2, Blocking.done (Except.ok args)) =>
         (w2, Blocking.done (Except.ok (arg :: args))))

/-- GetByType under the lock discipline: no lock operation of its own (an
empty bucket returns the no-instance error without touching the mutex);
a non-empty bucket resolves through getG. -/
def getByTypeG : Bool → Nat → World → GoType →
    World × Blocking (Except GoError Value)
  | _, 0, w, t =>
    (match bucketOf w.c.typeToIdentity t with
     | [] => (w, Blocking.done (Except.error (GoError.noInstanceOfType t)))
     | _ :: _ => (w, Blocking.done (Except.error GoError.outOfFuel)))
  | held, m + 1, w, t =>
    (match bucketOf w.c.typeToIdentity t with
     | [] => (w, Blocking.done (Except.error (GoError.noInstanceOfType t)))
     | id :: _ => getG held m w id)

end

/-- Create as the source executes it: c.Lock() is acquired at entry and
held (defer c.Unlock()) across the whole call to create, so the resolution
below runs with held = true and any dependency resolution that reaches
Get blocks forever. -/
def CreateGo (fuel : Nat) (w : World) (name : Identity) :
    World × Blocking (Except GoError Value) :=
  createG true fuel w name

/-! ### Bootstrap (bootstrap.go)

The bootstrap functions additionally return an instrumentation trace, a
list of `BEvent` values marking exactly the call sites
`p.Start(b.container)` and `p.Close(b.container)` in the source.  The
trace is produced by the bootstrap code alone; manager behaviour (arbitrary
functions on the world) cannot inject events into it, so statements about
the trace are statements about which lifecycle hooks the bootstrap invoked
and in which order. -/

/-- A lifecycle call performed by the bootstrap: Start or Close of the
manager with the given identity. -/
inductive BEvent where
  | startCalled (id : Identity)
  | closeCalled (id : Identity)
deriving DecidableEq, Repr

/-- A Manager: its identity and its Start and Close hooks, which are
arbitrary world transformers optionally returning an error, as the Go
interface allows. -/
structure Manager where
  ID : Identity
  Start : World → World × Option GoError
  Close : World → World × Option GoError

/-- The Bootstrap state: the managers whose Start completed successfully,
in start order. -/
structure Bootstrap where
  successful_procedures : List Manager

/-- The loop of Release: Close every tracked manager in start order,
ignoring individual Close errors, and record each Close call. -/
def ReleaseAux : World → List Manager → World × List BEvent
  | w, [] => (w, [])
  | w, p :: rest =>
    let r0 := p.Close w
    let r := ReleaseAux r0.1 rest
    (r.1, BEvent.closeCalled p.ID :: r.2)

/-- Release: Close every tracked manager in start order, then flush the
container entirely and clear the tracked list. -/
def Release (w : World) (b : Bootstrap) : World × List BEvent × Bootstrap :=
  let r := ReleaseAux w b.successful_procedures
  ({ r.1 with c := FlushALL r.1.c }, r.2, { successful_procedures := [] })

/-- The loop of Boot over the input managers: Start each in order; on
success (optionally after eagerly materializing the primary resource when
lazy is false, where a Get failure panics without releasing) append the
manager to the tracked list and continue; on an AlreadyRegisteredError
continue without appending; on any other error call Release and panic with
that error.  The type assertion in the source is written against the
identifier AlreadRegisteredError (sic); the model reads it as the
already-registered error kind, the kind produced by Container.Register,
which is the only coherent reading of the assertion. -/
def bootLoop (fuel : Nat) (lazy : Bool) :
    World → Bootstrap → List Manager → World × List BEvent × Outcome Bootstrap
  | w, b, [] => (w, [], Outcome.ok b)
  | w, b, p :: rest =>
    let s := p.Start w
    match s.2 with
    | none =>
      if lazy then
        let r := bootLoop fuel lazy s.1
          { successful_procedures := b.successful_procedures ++ [p] } rest
        (r.1, BEvent.startCalled p.ID :: r.2.1, r.2.2)
      else
        match Get fuel s.1 p.ID with
        | (w2, Except.error e) =>
          (w2, [BEvent.startCalled p.ID], Outcome.panicked e)
        | (w2, Except.ok _) =>
          let r := bootLoop fuel lazy w2
            { successful_procedures := b.successful_procedures ++ [p] } rest
          (r.1, BEvent.startCalled p.ID :: r.2.1, r.2.2)
    | some e =>
      match e with
      | GoError.alreadyRegistered _ =>
        let r := bootLoop fuel lazy s.1 b rest
        (r.1, BEvent.startCalled p.ID :: r.2.1, r.2.2)
      | _ =>
        let rel := Release s.1 b
        (rel.1, BEvent.startCalled p.ID :: rel.2.1, Outcome.panicked e)

/-- Boot: run the boot loop over the procedures starting from the given
bootstrap state. -/
def Boot (fuel : Nat) (w : World) (b : Bootstrap) (procedures : List Manager)
    (lazy : Bool) : World × List BEvent × Outcome Bootstrap :=
  bootLoop fuel lazy w b procedures

/-- Run: when no managers were successfully started this is a no-op;
otherwise the procedure runs synchronously and, when it returns normally,
Release follows.  A panicking procedure unwinds immediately: the source has
no defer, so Release is skipped on that path. -/
def Run (w : World) (b : Bootstrap) (f : World → World × Outcome Unit) :
    World × List BEvent × Bootstrap × Outcome Unit :=
  if b.successful_procedures.length ≠ 0 then
    match f w with
    | (w1, Outcome.ok _) =>
      let rel := Release w1 b
      (rel.1, rel.2.1, rel.2.2, Outcome.ok ())
    | (w1, Outcome.panicked e) => (w1, [], b, Outcome.panicked e)
  else (w, [], b, Outcome.ok ())

/-! ### Helper lemmas about the association-list map model -/

theorem lookupA_insertA_self {α : Type} (l : List (Identity × α)) (k : Identity)
    (v : α) : lookupA (insertA l k v) k = some v := by
  induction l with
  | nil => simp [insertA, lookupA]
  | cons hd tl ih =>
    obtain ⟨k1, v1⟩ := hd
    by_cases h : k1 = k <;> simp [insertA, lookupA, h, ih]

theorem lookupA_insertA_ne {α : Type} (l : List (Identity × α))
    (k k2 : Identity) (v : α) (h : k ≠ k2) :
    lookupA (insertA l k v) k2 = lookupA l k2 := by
  induction l with
  | nil => simp [insertA, lookupA, h]
  | cons hd tl ih =>
    obtain ⟨k1, v1⟩ := hd
    by_cases h1 : k1 = k
    · subst h1
      simp [insertA, lookupA, h]
    · simp [insertA, lookupA, h1, ih]

theorem bucketOf_setBucket_self (m : List (GoType × List Identity))
    (t : GoType) (b : List Identity) : bucketOf (setBucket m t b) t = b := by
  induction m with
  | nil => simp [setBucket, bucketOf]
  | cons hd tl ih =>
    obtain ⟨t1, b1⟩ := hd
    by_cases h : t1 = t <;> simp [setBucket, bucketOf, h, ih]

theorem bucketOf_setBucket_ne (m : List (GoType × List Identity))
    (t t2 : GoType) (b : List Identity) (h : t ≠ t2) :
    bucketOf (setBucket m t b) t2 = bucketOf m t2 := by
  induction m with
  | nil => simp [setBucket, bucketOf, h]
  | cons hd tl ih =>
    obtain ⟨t1, b1⟩ := hd
    by_cases h1 : t1 = t
    · subst h1
      simp [setBucket, bucketOf, h]
    · simp [setBucket, bucketOf, h1, ih]

/-! ### Frame lemmas for the resolution functions

Resolution (`Get`, `create`, `bind`, `buildParams`, `GetByType`) never
touches the definitions, the type index or the heap, only appends to the
builder log, and only adds entries to the store: a cached instance present
before a resolution step is still present, unchanged, afterwards. -/

/-- What any resolution step preserves between the entry world and the
result world. -/
def Frame (w w2 : World) : Prop :=
  w2.c.defs = w.c.defs ∧
  w2.c.typeToIdentity = w.c.typeToIdentity ∧
  w2.heap = w.heap ∧
  w.log.length ≤ w2.log.length ∧
  ∀ x v, lookupA w.c.store x = some v → lookupA w2.c.store x = some v

theorem Frame.refl (w : World) : Frame w w :=
  ⟨rfl, rfl, rfl, Nat.le_refl _, fun _ _ h => h⟩

theorem Frame.trans {w1 w2 w3 : World} (h1 : Frame w1 w2)
    (h2 : Frame w2 w3) : Frame w1 w3 := by
  obtain ⟨a1, b1, c1, d1, e1⟩ := h1
  obtain ⟨a2, b2, c2, d2, e2⟩ := h2
  exact ⟨a2.trans a1, b2.trans b1, c2.trans c1, d1.trans d2,
    fun x v h => e2 x v (e1 x v h)⟩

/-- Adding a fresh store entry (for an identity absent in the reference
world) keeps a frame valid. -/
theorem Frame.storeInsert (w : World) (n : Identity) (ret : Value)
    (w1 : World) (hF : Frame w w1) (hnone : lookupA w.c.store n = none) :
    Frame w { w1 with c := { w1.c with store := insertA w1.c.store n ret } } := by
  obtain ⟨a, b, c, d, e⟩ := hF
  refine ⟨a, b, c, d, ?_⟩
  intro x v hx
  by_cases hxn : n = x
  · subst hxn
    rw [hnone] at hx
    cases hx
  · show lookupA (insertA w1.c.store n ret) x = some v
    rw [lookupA_insertA_ne w1.c.store n x ret hxn]
    exact e x v hx

/-- Appending to the builder log keeps a frame valid. -/
theorem Frame.logAppend (w w1 : World) (tag : String) (hF : Frame w w1) :
    Frame w { w1 with log := w1.log ++ [tag] } := by
  obtain ⟨a, b, c, d, e⟩ := hF
  refine ⟨a, b, c, ?_, e⟩
  calc w.log.length ≤ w1.log.length := d
    _ ≤ (w1.log ++ [tag]).length := by simp

theorem resolveFrame : ∀ fuel : Nat,
    (∀ w n, Frame w (Get fuel w n).1) ∧
    (∀ w n, Frame w (create fuel w n).1) ∧
    (∀ w b, Frame w (bind fuel w b).1) ∧
    (∀ w ps ids, Frame w (buildParams fuel w ps ids).1) ∧
    (∀ w t, Frame w (GetByType fuel w t).1) := by
  intro fuel
  induction fuel with
  | zero =>
    refine ⟨?_, ?_, ?_, ?_, ?_⟩
    · intro w n
      simp only [Get]
      split
      · exact Frame.refl w
      · exact Frame.refl w
    · intro w n
      simp only [create]
      split
      · exact Frame.refl w
      · exact Frame.refl w
    · intro w b
      simp only [bind]
      exact Frame.refl w
    · intro w ps ids
      cases ps with
      | nil =>
        simp only [buildParams]
        exact Frame.refl w
      | cons t rest =>
        simp only [buildParams]
        exact Frame.refl w
    · intro w t
      simp only [GetByType]
      split
      · exact Frame.refl w
      · exact Frame.refl w
  | succ m ih =>
    obtain ⟨ihGet, ihCreate, ihBind, ihBuild, ihByType⟩ := ih
    have hGet : ∀ w n, Frame w (Get (m + 1) w n).1 := by
      intro w n
      simp only [Get]
      split
      · exact Frame.refl w
      · rename_i hmiss
        rcases hc : create m w n with ⟨w1, r⟩
        have hf := ihCreate w n
        rw [hc] at hf
        cases r with
        | error e => simpa [hc] using hf
        | ok ret =>
          simp only [hc]
          exact Frame.storeInsert w n ret w1 hf hmiss
    have hByType : ∀ w t, Frame w (GetByType (m + 1) w t).1 := by
      intro w t
      simp only [GetByType]
      split
      · exact Frame.refl w
      · exact ihGet w _
    have hBuild : ∀ ps w ids, Frame w (buildParams (m + 1) w ps ids).1 := by
      intro ps w ids
      match ps, ids with
      | [], _ =>
        simp only [buildParams]
        exact Frame.refl w
      | t :: rest, none =>
        simp only [buildParams]
        rcases harg : GetByType m w t with ⟨w1, r⟩
        have hf1 := ihByType w t
        rw [harg] at hf1
        cases r with
        | error e => exact hf1
        | ok arg =>
          dsimp only
          rcases hrest : buildParams m w1 rest none with ⟨w2, r2⟩
          have hf2 := ihBuild w1 rest none
          rw [hrest] at hf2
          cases r2 with
          | error e => simpa using Frame.trans hf1 hf2
          | ok args => simpa using Frame.trans hf1 hf2
      | _ :: _, some [] =>
        simp only [buildParams]
        exact Frame.refl w
      | t :: rest, some (i :: irest) =>
        simp only [buildParams]
        rcases harg : Get m w i with ⟨w1, r⟩
        have hf1 := ihGet w i
        rw [harg] at hf1
        cases r with
        | error e => exact hf1
        | ok arg =>
          dsimp only
          rcases hrest : buildParams m w1 rest (some irest) with ⟨w2, r2⟩
          have hf2 := ihBuild w1 rest (some irest)
          rw [hrest] at hf2
          cases r2 with
          | error e => simpa using Frame.trans hf1 hf2
          | ok args => simpa using Frame.trans hf1 hf2
    have hBind : ∀ w b, Frame w (bind (m + 1) w b).1 := by
      intro w b
      simp only [bind]
      rcases hp : buildParams m w b.params none with ⟨w1, r⟩
      have hf := ihBuild w b.params none
      rw [hp] at hf
      cases r with
      | error e => simpa [hp] using hf
      | ok args =>
        simp only [hp]
        exact Frame.logAppend w w1 b.tag hf
    have hCreate : ∀ w n, Frame w (create (m + 1) w n).1 := by
      intro w n
      simp only [create]
      split
      · exact Frame.refl w
      · exact ihBind w _
    exact ⟨hGet, hCreate, hBind, fun w ps ids => hBuild ps w ids, hByType⟩

/-- Convenience projections of the frame lemma. -/
theorem frame_Get (fuel : Nat) (w : World) (n : Identity) :
    Frame w (Get fuel w n).1 :=
  (resolveFrame fuel).1 w n

theorem frame_create (fuel : Nat) (w : World) (n : Identity) :
    Frame w (create fuel w n).1 :=
  (resolveFrame fuel).2.1 w n

theorem frame_GetByType (fuel : Nat) (w : World) (t : GoType) :
    Frame w (GetByType fuel w t).1 :=
  (resolveFrame fuel).2.2.2.2 w t

/-- A cache hit: Get returns the stored instance unchanged, at any fuel. -/
theorem Get_hit (fuel : Nat) (w : World) (n : Identity) (obj : Value)
    (h : lookupA w.c.store n = some obj) :
    Get fuel w n = (w, Except.ok obj) := by
  cases fuel <;> simp [Get, h]

/-- A successful Get leaves the produced value in the store under the
requested identity. -/
theorem Get_stores (fuel : Nat) (w : World) (n : Identity) (w2 : World)
    (v : Value) (h : Get fuel w n = (w2, Except.ok v)) :
    lookupA w2.c.store n = some v := by
  cases fuel with
  | zero =>
    rcases hl : lookupA w.c.store n with _ | obj <;> simp [Get, hl] at h
    obtain ⟨rfl, rfl⟩ := h
    exact hl
  | succ m =>
    rcases hl : lookupA w.c.store n with _ | obj
    · simp only [Get, hl] at h
      rcases hc : create m w n with ⟨w1, r⟩
      rw [hc] at h
      cases r with
      | error e => simp at h
      | ok ret =>
        simp only [Prod.mk.injEq, Except.ok.injEq] at h
        obtain ⟨rfl, rfl⟩ := h
        exact lookupA_insertA_self _ n _
    · simp only [Get, hl] at h
      obtain ⟨rfl, rfl⟩ := h
      exact hl

/-- The value produced by a successful bind carries the serial of its own
invocation: at least the entry log length, and strictly below the exit log
length. -/
theorem bind_serial (fuel : Nat) (w : World) (b : Builder) (w2 : World)
    (v : Value) (h : bind fuel w b = (w2, Except.ok v)) :
    w.log.length ≤ v.serial ∧ v.serial < w2.log.length := by
  cases fuel with
  | zero => simp [bind] at h
  | succ m =>
    simp only [bind] at h
    rcases hp : buildParams m w b.params none with ⟨w1, r⟩
    rw [hp] at h
    cases r with
    | error e => simp at h
    | ok args =>
      simp only [Prod.mk.injEq, Except.ok.injEq] at h
      obtain ⟨rfl, rfl⟩ := h
      have hf := (resolveFrame m).2.2.2.1 w b.params none
      rw [hp] at hf
      obtain ⟨_, _, _, hlog, _⟩ := hf
      constructor
      · exact hlog
      · simp

/-- A successful create builds a fresh value: its serial is at least the
entry log length and strictly below the exit log length. -/
theorem create_serial (fuel : Nat) (w : World) (n : Identity) (w2 : World)
    (v : Value) (h : create fuel w n = (w2, Except.ok v)) :
    w.log.length ≤ v.serial ∧ v.serial < w2.log.length := by
  cases fuel with
  | zero =>
    rcases hl : lookupA w.c.defs n with _ | b <;> simp [create, hl] at h
  | succ m =>
    rcases hl : lookupA w.c.defs n with _ | b
    · simp [create, hl] at h
    · simp only [create, hl] at h
      exact bind_serial m w b w2 v h

/-- A successful Get on a cache miss builds a fresh value. -/
theorem Get_fresh_serial (fuel : Nat) (w : World) (n : Identity)
    (w2 : World) (v : Value) (h0 : lookupA w.c.store n = none)
    (h : Get fuel w n = (w2, Except.ok v)) :
    w.log.length ≤ v.serial ∧ v.serial < w2.log.length := by
  cases fuel with
  | zero => simp [Get, h0] at h
  | succ m =>
    simp only [Get, h0] at h
    rcases hc : create m w n with ⟨w1, r⟩
    rw [hc] at h
    cases r with
    | error e => simp at h
    | ok ret =>
      simp only [Prod.mk.injEq, Except.ok.injEq] at h
      obtain ⟨rfl, rfl⟩ := h
      simpa using create_serial m w n w1 _ hc

/-- Release closes exactly the tracked managers, in start order, one Close
call each. -/
theorem ReleaseAux_trace (l : List Manager) : ∀ w : World,
    (ReleaseAux w l).2 = l.map (fun p => BEvent.closeCalled p.ID) := by
  induction l with
  | nil => intro w; simp [ReleaseAux]
  | cons p rest ih => intro w; simp [ReleaseAux, ih]

/-- The boot loop over a list split: an initial segment that completes
normally composes with the processing of the remaining managers. -/
theorem bootLoop_append (fuel : Nat) (lazy : Bool) (pre : List Manager) :
    ∀ w b w1 tr1 b1 rest,
    bootLoop fuel lazy w b pre = (w1, tr1, Outcome.ok b1) →
    bootLoop fuel lazy w b (pre ++ rest) =
      ((bootLoop fuel lazy w1 b1 rest).1,
       tr1 ++ (bootLoop fuel lazy w1 b1 rest).2.1,
       (bootLoop fuel lazy w1 b1 rest).2.2) := by
  induction pre with
  | nil =>
    intro w b w1 tr1 b1 rest h
    simp only [bootLoop, Prod.mk.injEq, Outcome.ok.injEq] at h
    obtain ⟨rfl, rfl, rfl⟩ := h
    simp
  | cons p ps ih =>
    intro w b w1 tr1 b1 rest h
    simp only [bootLoop, List.cons_append] at h ⊢
    rcases hs : p.Start w with ⟨ws, err⟩
    rw [hs] at h
    dsimp only at h ⊢
    cases err with
    | none =>
      cases lazy with
      | true =>
        simp only [eq_self_iff_true, if_true] at h ⊢
        rcases hrec : bootLoop fuel true ws
            { successful_procedures := b.successful_procedures ++ [p] } ps
          with ⟨wr, trr, outr⟩
        rw [hrec] at h
        dsimp only at h
        simp only [Prod.mk.injEq] at h
        obtain ⟨rfl, rfl, houtr⟩ := h
        cases outr with
        | panicked e => cases houtr
        | ok br =>
          obtain rfl : br = b1 := by cases houtr; rfl
          try simp only [List.append_eq]
          rw [ih ws _ wr trr br rest hrec]
          simp
      | false =>
        simp only [Bool.false_eq_true, if_false] at h ⊢
        rcases hget : Get fuel ws p.ID with ⟨wg, rg⟩
        rw [hget] at h
        cases rg with
        | error e => simp at h
        | ok vg =>
          dsimp only at h ⊢
          rcases hrec : bootLoop fuel false wg
              { successful_procedures := b.successful_procedures ++ [p] } ps
            with ⟨wr, trr, outr⟩
          rw [hrec] at h
          dsimp only at h
          simp only [Prod.mk.injEq] at h
          obtain ⟨rfl, rfl, houtr⟩ := h
          cases outr with
          | panicked e => cases houtr
          | ok br =>
            obtain rfl : br = b1 := by cases houtr; rfl
            try simp only [List.append_eq]
            rw [ih wg _ wr trr br rest hrec]
            simp
    | some e =>
      cases e with
      | alreadyRegistered msg =>
        dsimp only at h ⊢
        rcases hrec : bootLoop fuel lazy ws b ps with ⟨wr, trr, outr⟩
        rw [hrec] at h
        dsimp only at h
        simp only [Prod.mk.injEq] at h
        obtain ⟨rfl, rfl, houtr⟩ := h
        cases outr with
        | panicked e2 => cases houtr
        | ok br =>
          obtain rfl : br = b1 := by cases houtr; rfl
          try simp only [List.append_eq]
          rw [ih ws b wr trr br rest hrec]
          simp
      | notRegistered a => simp at h
      | noInstanceOfType a => simp at h
      | outOfFuel => simp at h
      | custom a => simp at h

/-! ### The held=false fragment of the lock-aware semantics is the plain
semantics -/

/-- With no exclusive lock held, the lock-aware resolution functions
coincide with the plain ones: every lock they take is immediately
available, so the plain functions are the real execution for every entry
point that does not already hold the lock (everything except Create). -/
theorem lockFreeAgrees : ∀ fuel : Nat,
    (∀ w n, getG false fuel w n =
      ((Get fuel w n).1, Blocking.done (Get fuel w n).2))
    ∧ (∀ w n, createG false fuel w n =
      ((create fuel w n).1, Blocking.done (create fuel w n).2))
    ∧ (∀ w b, bindG false fuel w b =
      ((bind fuel w b).1, Blocking.done (bind fuel w b).2))
    ∧ (∀ w ps ids, buildParamsG false fuel w ps ids =
      ((buildParams fuel w ps ids).1,
       Blocking.done (buildParams fuel w ps ids).2))
    ∧ (∀ w t, getByTypeG false fuel w t =
      ((GetByType fuel w t).1, Blocking.done (GetByType fuel w t).2)) := by
  intro fuel
  induction fuel with
  | zero =>
    refine ⟨?_, ?_, ?_, ?_, ?_⟩
    · intro w n
      rcases hl : lookupA w.c.store n with _ | obj <;> simp [getG, Get, hl]
    · intro w n
      rcases hl : lookupA w.c.defs n with _ | b <;> simp [createG, create, hl]
    · intro w b
      simp [bindG, bind]
    · intro w ps ids
      cases ps with
      | nil => simp [buildParamsG, buildParams]
      | cons t rest => simp [buildParamsG, buildParams]
    · intro w t
      rcases hb : bucketOf w.c.typeToIdentity t with _ | ⟨i, is⟩ <;>
        simp [getByTypeG, GetByType, hb]
  | succ m ih =>
    obtain ⟨ihGet, ihCreate, ihBind, ihBuild, ihByType⟩ := ih
    have hGet : ∀ w n, getG false (m + 1) w n =
        ((Get (m + 1) w n).1, Blocking.done (Get (m + 1) w n).2) := by
      intro w n
      rcases hl : lookupA w.c.store n with _ | obj
      · simp only [getG, Get, hl]
        rcases hc : create m w n with ⟨w1, r⟩
        have hcg := ihCreate w n
        rw [hc] at hcg
        rw [hcg]
        cases r with
        | error e => rfl
        | ok ret => rfl
      · simp [getG, Get, hl]
    have hByType : ∀ w t, getByTypeG false (m + 1) w t =
        ((GetByType (m + 1) w t).1,
         Blocking.done (GetByType (m + 1) w t).2) := by
      intro w t
      rcases hb : bucketOf w.c.typeToIdentity t with _ | ⟨i, is⟩
      · simp [getByTypeG, GetByType, hb]
      · simp only [getByTypeG, GetByType, hb]
        exact ihGet w i
    have hBuild : ∀ ps w ids, buildParamsG false (m + 1) w ps ids =
        ((buildParams (m + 1) w ps ids).1,
         Blocking.done (buildParams (m + 1) w ps ids).2) := by
      intro ps w ids
      match ps, ids with
      | [], _ =>
        simp [buildParamsG, buildParams]
      | t :: rest, none =>
        simp only [buildParamsG, buildParams]
        rcases hbt : GetByType m w t with ⟨w1, r⟩
        have hg := ihByType w t
        rw [hbt] at hg
        rw [hg]
        cases r with
        | error e => rfl
        | ok arg =>
          dsimp only
          rcases hr : buildParams m w1 rest none with ⟨w2, r2⟩
          have hb2 := ihBuild w1 rest none
          rw [hr] at hb2
          rw [hb2]
          cases r2 with
          | error e => rfl
          | ok args => rfl
      | _ :: _, some [] =>
        simp [buildParamsG, buildParams]
      | t :: rest, some (i :: irest) =>
        simp only [buildParamsG, buildParams]
        rcases hgi : Get m w i with ⟨w1, r⟩
        have hg := ihGet w i
        rw [hgi] at hg
        rw [hg]
        cases r with
        | error e => rfl
        | ok arg =>
          dsimp only
          rcases hr : buildParams m w1 rest (some irest) with ⟨w2, r2⟩
          have hb2 := ihBuild w1 rest (some irest)
          rw [hr] at hb2
          rw [hb2]
          cases r2 with
          | error e => rfl
          | ok args => rfl
    have hBind : ∀ w b, bindG false (m + 1) w b =
        ((bind (m + 1) w b).1, Blocking.done (bind (m + 1) w b).2) := by
      intro w b
      simp only [bindG, bind]
      rcases hp : buildParams m w b.params none with ⟨w1, r⟩
      have hb2 := ihBuild w b.params none
      rw [hp] at hb2
      rw [hb2]
      cases r with
      | error e => rfl
      | ok args => rfl
    have hCreate : ∀ w n, createG false (m + 1) w n =
        ((create (m + 1) w n).1, Blocking.done (create (m + 1) w n).2) := by
      intro w n
      rcases hl : lookupA w.c.defs n with _ | b
      · simp [createG, create, hl]
      · simp only [createG, create, hl]
        exact ihBind w b
    exact ⟨hGet, hCreate, hBind, fun w ps ids => hBuild ps w ids, hByType⟩

/-! ### Concrete fixtures used by witnesses and counterexamples -/

/-- A dependency-free builder of return type string, as in the repository
tests (TestRegister / TestUnregistered). -/
def bConfig : Builder :=
  { tag := "config", params := [], retType := "string",
    body := fun _ => "config" }

/-- A second builder for the same identity, used for duplicate
registration. -/
def bConfig2 : Builder :=
  { tag := "config2", params := [], retType := "string",
    body := fun _ => "config-two" }

/-- The empty world: fresh container, no builder invocations, empty heap. -/
def w0 : World := { c := NewContainer, log := [], heap := [] }

/-- The container holding exactly the config definition. -/
def containerC7 : Container := (Register NewContainer "config" bConfig).1

/-! ### Claims C5, C6, C7, C9 (container registration and removal) -/

/-- C5: for every identity id not previously registered, Register(id, b)
succeeds and an immediately following Register(id, b2) returns an
AlreadyRegistered error while leaving the container unchanged: the second
call returns the container c1 itself (so the stored builder for id remains
b and the type index is not extended by the failed call). -/
theorem claim_C5 (c : Container) (id : Identity) (b b2 : Builder)
    (c1 : Container) (h0 : lookupA c.defs id = none)
    (h1 : Register c id b = (c1, none)) :
    Register c1 id b2 =
      (c1, some (GoError.alreadyRegistered (id ++ " was already registered")))
    ∧ lookupA c1.defs id = some b := by
  simp only [Register, h0, Prod.mk.injEq, and_true] at h1
  subst h1
  constructor
  · simp [Register, lookupA_insertA_self]
  · simp [lookupA_insertA_self]

/-- C5 witness: the concrete double registration of the config builder. -/
theorem claim_C5_witness :
    Register containerC7 "config" bConfig2 =
      (containerC7,
       some (GoError.alreadyRegistered "config was already registered"))
    ∧ lookupA containerC7.defs "config" = some bConfig :=
  claim_C5 NewContainer "config" bConfig bConfig2 containerC7 rfl rfl

/-- C6 (code bug): the claim says Unregister of an absent identity is a
no-op, but the code reads the missing builder (the nil interface), calls
reflect.TypeOf on it and dereferences the resulting nil reflect.Type, so
Unregister on an empty container panics instead of doing nothing. -/
theorem claim_C6_code_bug :
    Unregister NewContainer "config" =
      Outcome.panicked (GoError.custom
        "runtime error: invalid memory address or nil pointer dereference") :=
  rfl

/-- C7 (code bug): the claim says Unregister removes the identity from its
type-index bucket, but the source discards the slice returned by pop, so
the map keeps the old slice header: after registering config (sole
registrant of type string) and unregistering it, the builder and cached
instance are gone yet the bucket for string still contains config. -/
theorem claim_C7_code_bug :
    ∃ c2, Unregister containerC7 "config" = Outcome.ok c2
      ∧ lookupA c2.defs "config" = none
      ∧ lookupA c2.store "config" = none
      ∧ bucketOf c2.typeToIdentity "string" = ["config"] :=
  ⟨{ defs := [], typeToIdentity := [("string", ["config"])], store := [] },
   rfl, rfl, rfl, rfl⟩

/-- C9 counterexample: the claim says a non-pointer-like target makes
Assign fail by returning an error rather than crashing; in the code a
non-nil non-pointer target reaches valueType.Elem(), which panics in the
reflect package, so the call crashes instead of returning an error. -/
theorem claim_C9_counterexample :
    (Assign 3 w0 (TargetRef.nonPointer "int") []).2 =
      Outcome.panicked (GoError.custom "reflect: Elem of invalid type") :=
  rfl

/-- C9 amended: a nil target makes Assign return an error; a non-nil
non-pointer-like target makes it panic in reflection rather than return an
error; and when the target is a valid pointer and resolution fails, Assign
returns the resolution error and leaves the pointed-to location (the heap)
unchanged. -/
theorem claim_C9_amended (fuel : Nat) (w : World) (ids : List Identity)
    (t et : GoType) (loc : Nat) (e : GoError) (w1 : World) :
    Assign fuel w TargetRef.nilRef ids =
      (w, Outcome.ok (some (GoError.custom "input value should not be nil")))
    ∧ Assign fuel w (TargetRef.nonPointer t) ids =
        (w, Outcome.panicked (GoError.custom "reflect: Elem of invalid type"))
    ∧ (GetByType fuel w et = (w1, Except.error e) →
        Assign fuel w (TargetRef.pointer et loc) [] = (w1, Outcome.ok (some e))
        ∧ w1.heap = w.heap)
    ∧ (∀ i irest, Get fuel w i = (w1, Except.error e) →
        Assign fuel w (TargetRef.pointer et loc) (i :: irest) =
          (w1, Outcome.ok (some e))
        ∧ w1.heap = w.heap) := by
  refine ⟨rfl, rfl, ?_, ?_⟩
  · intro h
    constructor
    · simp only [Assign, h]
    · have hf := frame_GetByType fuel w et
      rw [h] at hf
      exact hf.2.2.1
  · intro i irest h
    constructor
    · simp only [Assign, h]
    · have hf := frame_Get fuel w i
      rw [h] at hf
      exact hf.2.2.1

/-- C9 witness for the amended claim: resolving by type against the empty
container fails, the pointer target is untouched and the error is
returned. -/
theorem claim_C9_amended_witness :
    Assign 2 w0 (TargetRef.pointer "T" 0) [] =
      (w0, Outcome.ok (some (GoError.noInstanceOfType "T")))
    ∧ w0.heap = w0.heap :=
  (claim_C9_amended 2 w0 [] "int" "T" 0
    (GoError.noInstanceOfType "T") w0).2.2.1 rfl

/-! ### Claim C4 (Get is a lazy singleton, Create always rebuilds) -/

/-- Create unfolds to the unexported create helper. -/
theorem Create_eq (fuel : Nat) (w : World) (n : Identity) :
    Create fuel w n = create fuel w n := rfl

/-- C4: after a successful Get, a second Get at any fuel returns the
identical cached instance with the world unchanged (so the builder ran at
most once across the two calls); and when the identity was uncached before
the first Get, each subsequent Create call re-invokes the builder (the log
grows) and returns a value from a distinct invocation (distinct serial,
never the cached instance), and neither Create call changes the cache
entry for the identity, which keeps the value the first Get stored. -/
theorem claim_C4 (f1 f2 f3 : Nat) (w : World) (id : Identity)
    (w1 : World) (v : Value)
    (h1 : Get f1 w id = (w1, Except.ok v)) :
    Get f2 w1 id = (w1, Except.ok v)
    ∧ ∀ wa va, lookupA w.c.store id = none →
        Create f2 w1 id = (wa, Except.ok va) →
        lookupA wa.c.store id = some v
        ∧ va.serial ≠ v.serial
        ∧ w1.log.length < wa.log.length
        ∧ ∀ wb vb, Create f3 wa id = (wb, Except.ok vb) →
            lookupA wb.c.store id = some v
            ∧ vb.serial ≠ va.serial
            ∧ vb.serial ≠ v.serial := by
  have hstored := Get_stores f1 w id w1 v h1
  refine ⟨Get_hit f2 w1 id v hstored, ?_⟩
  intro wa va h0 hca
  have hfresh := Get_fresh_serial f1 w id w1 v h0 h1
  rw [Create_eq] at hca
  have hfa := frame_create f2 w1 id
  rw [hca] at hfa
  have hsa := create_serial f2 w1 id wa va hca
  have hstore_a : lookupA wa.c.store id = some v := hfa.2.2.2.2 id v hstored
  refine ⟨hstore_a, ?_, ?_, ?_⟩
  · omega
  · omega
  · intro wb vb hcb
    rw [Create_eq] at hcb
    have hfb := frame_create f3 wa id
    rw [hcb] at hfb
    have hsb := create_serial f3 wa id wb vb hcb
    refine ⟨hfb.2.2.2.2 id v hstore_a, ?_, ?_⟩
    · omega
    · omega

/-- The world after the config builder was resolved once by Get. -/
def wCfg : World :=
  { c := containerC7, log := [], heap := [] }

/-- The world after the first Get of config. -/
def wCfg1 : World := (Get 3 wCfg "config").1

/-- The world after a subsequent Create of config. -/
def waC4 : World := (Create 4 wCfg1 "config").1

/-- C4 witness: the concrete config scenario; the second Get returns the
cached instance with serial 0, while Create leaves that cache entry alone
and builds a fresh instance with serial 1. -/
theorem claim_C4_witness :
    Get 5 wCfg1 "config" =
      (wCfg1, Except.ok { payload := "config", serial := 0 })
    ∧ lookupA waC4.c.store "config" =
        some { payload := "config", serial := 0 }
    ∧ ({ payload := "config", serial := 1 } : Value).serial ≠
        ({ payload := "config", serial := 0 } : Value).serial := by
  have h := claim_C4 3 5 6 wCfg "config" wCfg1
    { payload := "config", serial := 0 } (by rfl)
  have h2 := h.2 waC4 { payload := "config", serial := 1 } rfl (by rfl)
  exact ⟨h.1, h2.1, h2.2.1⟩

/-! ### Claims C1, C2, C3 (bootstrap) -/

/-- C2: a manager whose Start returns the already-registered error kind
(the kind produced by Container.Register on a duplicate identity) is
treated as benign by the boot loop: processing continues with the
remaining managers from the post-Start world, the manager is not appended
to the success-tracking list, no Close call is emitted at this step and no
panic is raised at this step; and Register indeed only ever fails with an
error of that kind. -/
theorem claim_C2 (fuel : Nat) (lazy : Bool) (w : World) (b : Bootstrap)
    (p : Manager) (rest : List Manager) (w1 : World) (msg : String)
    (hstart : p.Start w = (w1, some (GoError.alreadyRegistered msg))) :
    bootLoop fuel lazy w b (p :: rest) =
      ((bootLoop fuel lazy w1 b rest).1,
       BEvent.startCalled p.ID :: (bootLoop fuel lazy w1 b rest).2.1,
       (bootLoop fuel lazy w1 b rest).2.2)
    ∧ (∀ c id bld c2 e, Register c id bld = (c2, some e) →
        e.isAlreadyRegistered = true) := by
  constructor
  · simp only [bootLoop]
    rw [hstart]
  · intro c id bld c2 e h
    rcases hl : lookupA c.defs id with _ | bb
    · simp [Register, hl] at h
    · simp only [Register, hl, Prod.mk.injEq, Option.some.injEq] at h
      obtain ⟨-, rfl⟩ := h
      rfl

/-- A manager whose Start reports a duplicate registration. -/
def mgrDup : Manager :=
  { ID := "dup"
    Start := fun w => (w, some (GoError.alreadyRegistered "dup"))
    Close := fun w => (w, none) }

/-- C2 witness: booting the duplicate-reporting manager continues and
tracks nothing. -/
theorem claim_C2_witness :
    bootLoop 2 true w0 { successful_procedures := [] } [mgrDup] =
      (w0, [BEvent.startCalled "dup"],
       Outcome.ok { successful_procedures := [] }) := by
  have h := (claim_C2 2 true w0 { successful_procedures := [] } mgrDup []
    w0 "dup" rfl).1
  exact h.trans (by rfl)

/-- C1: when an initial segment of the managers boots normally and the
next manager fails with a non-benign Start error, the boot loop over the
whole list performs the work of that segment, starts the failing manager,
then closes
every tracked (started) manager in start order with one Close call each
(via Release) and panics with that error; the trace equation shows no
manager after the failing one is started. -/
theorem claim_C1 (fuel : Nat) (lazy : Bool) (w : World) (b : Bootstrap)
    (pre : List Manager) (p : Manager) (post : List Manager)
    (w1 : World) (tr1 : List BEvent) (b1 : Bootstrap) (w2 : World)
    (e : GoError)
    (h1 : bootLoop fuel lazy w b pre = (w1, tr1, Outcome.ok b1))
    (h2 : p.Start w1 = (w2, some e))
    (h3 : e.isAlreadyRegistered = false) :
    bootLoop fuel lazy w b (pre ++ p :: post) =
      ((Release w2 b1).1,
       tr1 ++ BEvent.startCalled p.ID :: (Release w2 b1).2.1,
       Outcome.panicked e)
    ∧ (Release w2 b1).2.1 =
        b1.successful_procedures.map (fun m => BEvent.closeCalled m.ID) := by
  constructor
  · rw [bootLoop_append fuel lazy pre w b w1 tr1 b1 (p :: post) h1]
    have hstep : bootLoop fuel lazy w1 b1 (p :: post) =
        ((Release w2 b1).1,
         BEvent.startCalled p.ID :: (Release w2 b1).2.1,
         Outcome.panicked e) := by
      simp only [bootLoop]
      rw [h2]
      cases e with
      | alreadyRegistered msg => simp [GoError.isAlreadyRegistered] at h3
      | notRegistered a => rfl
      | noInstanceOfType a => rfl
      | outOfFuel => rfl
      | custom a => rfl
    rw [hstep]
  · simp [Release, ReleaseAux_trace]

/-- A builder registered by the db manager fixture. -/
def bDb : Builder :=
  { tag := "db", params := [], retType := "dbT", body := fun _ => "dbv" }

/-- A manager that registers the db builder and reports success. -/
def mgrDb : Manager :=
  { ID := "db"
    Start := fun w =>
      match Register w.c "db" bDb with
      | (c1, e) => ({ w with c := c1 }, e)
    Close := fun w => (w, none) }

/-- A manager whose Start fails with a non-benign error. -/
def mgrBad : Manager :=
  { ID := "bad"
    Start := fun w => (w, some (GoError.custom "boom"))
    Close := fun w => (w, none) }

/-- A manager after the failing one; its Start must never run. -/
def mgrLog : Manager :=
  { ID := "log"
    Start := fun w => (w, none)
    Close := fun w => (w, none) }

/-- The world after the db manager started. -/
def wC1 : World := (mgrDb.Start w0).1

/-- The bootstrap state tracking exactly the db manager. -/
def bsC1 : Bootstrap := { successful_procedures := [mgrDb] }

/-- C1 witness: db boots, bad fails, db is closed exactly once and the
panic carries the error; log is never started. -/
theorem claim_C1_witness :
    bootLoop 3 true w0 { successful_procedures := [] }
        ([mgrDb] ++ mgrBad :: [mgrLog]) =
      ((Release wC1 bsC1).1,
       [BEvent.startCalled "db"] ++
         BEvent.startCalled "bad" :: (Release wC1 bsC1).2.1,
       Outcome.panicked (GoError.custom "boom"))
    ∧ (Release wC1 bsC1).2.1 = [BEvent.closeCalled "db"] := by
  have h := claim_C1 3 true w0 { successful_procedures := [] }
    [mgrDb] mgrBad [mgrLog] wC1 [BEvent.startCalled "db"] bsC1 wC1
    (GoError.custom "boom") (by rfl) (by rfl) rfl
  exact ⟨h.1, h.2.trans (by rfl)⟩

/-- The application body that panics. -/
def fPanic : World → World × Outcome Unit :=
  fun w => (w, Outcome.panicked (GoError.custom "boom"))

/-- The application body that returns normally. -/
def fOk : World → World × Outcome Unit := fun w => (w, Outcome.ok ())

/-- C3 counterexample: with one tracked manager and a panicking procedure,
Run propagates the panic without performing any Close call and without
clearing the tracked list — Release (which here would emit the Close of
db, as the second conjunct shows) is NOT called on the panic exit path,
because the source calls Release after the procedure with no defer.  This
refutes the claim that Release runs on every exit path of Run. -/
theorem claim_C3_counterexample :
    Run w0 bsC1 fPanic =
      (w0, [], bsC1, Outcome.panicked (GoError.custom "boom"))
    ∧ (Release w0 bsC1).2.1 = [BEvent.closeCalled "db"] :=
  ⟨by rfl, by rfl⟩

/-- C3 amended: with zero successfully started managers Run is a no-op and
the procedure is not invoked; with at least one, the procedure runs and,
when it returns normally, Release follows (closing every tracked manager
in start order and clearing the list); when the procedure panics, the
panic propagates and Release is not called. -/
theorem claim_C3_amended (w : World) (b : Bootstrap)
    (f : World → World × Outcome Unit) (w1 : World) (e : GoError) :
    (b.successful_procedures = [] → Run w b f = (w, [], b, Outcome.ok ()))
    ∧ (b.successful_procedures ≠ [] → f w = (w1, Outcome.ok ()) →
        Run w b f = ((Release w1 b).1, (Release w1 b).2.1,
          { successful_procedures := [] }, Outcome.ok ())
        ∧ (Release w1 b).2.1 =
            b.successful_procedures.map (fun m => BEvent.closeCalled m.ID))
    ∧ (b.successful_procedures ≠ [] → f w = (w1, Outcome.panicked e) →
        Run w b f = (w1, [], b, Outcome.panicked e)) := by
  refine ⟨?_, ?_, ?_⟩
  · intro h
    simp [Run, h]
  · intro hne hf
    have hlen : b.successful_procedures.length ≠ 0 := by
      simpa [List.length_eq_zero] using hne
    constructor
    · rw [Run, if_pos hlen, hf]
      rfl
    · simp [Release, ReleaseAux_trace]
  · intro hne hf
    have hlen : b.successful_procedures.length ≠ 0 := by
      simpa [List.length_eq_zero] using hne
    rw [Run, if_pos hlen, hf]

/-- C3 amended witness: the normal-return path releases the tracked db
manager. -/
theorem claim_C3_amended_witness :
    Run w0 bsC1 fOk = ((Release w0 bsC1).1, (Release w0 bsC1).2.1,
      { successful_procedures := [] }, Outcome.ok ())
    ∧ (Release w0 bsC1).2.1 = [BEvent.closeCalled "db"] := by
  have h := (claim_C3_amended w0 bsC1 fOk w0 GoError.outOfFuel).2.1
    (by simp [bsC1]) rfl
  exact ⟨h.1, h.2.trans (by rfl)⟩

/-! ### Claim C8 (resolution by type prefers the first registrant) -/

/-- C8: registering A then B for the same return type t (with nothing for
t before) makes the bucket for t hold [A, B] in registration order;
GetByType on t then resolves exactly to Get of A (the first registrant),
while the definition looked up by an explicit Get of B is the builder of
B; and GetByType on a type with an empty bucket returns the
no-instance-registered error. -/
theorem claim_C8 (c : Container) (t : GoType) (A B : Identity)
    (bA bB : Builder) (c1 c2 : Container)
    (hAB : A ≠ B)
    (hA0 : lookupA c.defs A = none) (hB0 : lookupA c.defs B = none)
    (ht : bucketOf c.typeToIdentity t = [])
    (hrA : bA.retType = t) (hrB : bB.retType = t)
    (h1 : Register c A bA = (c1, none))
    (h2 : Register c1 B bB = (c2, none)) :
    bucketOf c2.typeToIdentity t = [A, B]
    ∧ (∀ fuel w, w.c = c2 → GetByType (fuel + 1) w t = Get fuel w A)
    ∧ lookupA c2.defs B = some bB
    ∧ (∀ fuel w t2, bucketOf w.c.typeToIdentity t2 = [] →
        GetByType fuel w t2 =
          (w, Except.error (GoError.noInstanceOfType t2))) := by
  simp only [Register, hA0, Prod.mk.injEq, and_true] at h1
  subst h1
  have hB1 : lookupA (insertA c.defs A bA) B = none := by
    rw [lookupA_insertA_ne c.defs A B bA hAB]
    exact hB0
  simp only [Register, hB1, Prod.mk.injEq, and_true] at h2
  subst h2
  have hbucket1 : bucketOf
      (setBucket c.typeToIdentity bA.retType
        (bucketOf c.typeToIdentity bA.retType ++ [A])) t = [A] := by
    rw [hrA, bucketOf_setBucket_self, ht]
    rfl
  have hbucket2 : bucketOf
      (setBucket
        (setBucket c.typeToIdentity bA.retType
          (bucketOf c.typeToIdentity bA.retType ++ [A]))
        bB.retType
        (bucketOf
          (setBucket c.typeToIdentity bA.retType
            (bucketOf c.typeToIdentity bA.retType ++ [A])) bB.retType
          ++ [B])) t = [A, B] := by
    rw [hrB, bucketOf_setBucket_self, hbucket1]
    rfl
  refine ⟨hbucket2, ?_, ?_, ?_⟩
  · intro fuel w hw
    have hb : bucketOf w.c.typeToIdentity t = [A, B] := by
      rw [hw]
      exact hbucket2
    simp [GetByType, hb]
  · show lookupA (insertA (insertA c.defs A bA) B bB) B = some bB
    exact lookupA_insertA_self _ B bB
  · intro fuel w t2 hb
    cases fuel <;> simp [GetByType, hb]

/-- The builder for identity alice, of shared type A. -/
def bAlice : Builder :=
  { tag := "alice", params := [], retType := "A",
    body := fun _ => "I am Alice" }

/-- The builder for identity bob, also of type A. -/
def bBob : Builder :=
  { tag := "bob", params := [], retType := "A",
    body := fun _ => "I am Bob" }

/-- The container after registering alice. -/
def cAlice : Container := (Register NewContainer "alice" bAlice).1

/-- The container after registering alice then bob. -/
def cAliceBob : Container := (Register cAlice "bob" bBob).1

/-- The world holding the alice-then-bob container. -/
def wC8 : World := { c := cAliceBob, log := [], heap := [] }

/-- C8 witness: the concrete alice/bob scenario of the repository test
TestInvokeWithSpecifiedIdentity. -/
theorem claim_C8_witness :
    bucketOf cAliceBob.typeToIdentity "A" = ["alice", "bob"]
    ∧ GetByType 4 wC8 "A" = Get 3 wC8 "alice"
    ∧ lookupA cAliceBob.defs "bob" = some bBob
    ∧ GetByType 2 wC8 "Z" =
        (wC8, Except.error (GoError.noInstanceOfType "Z")) := by
  have h := claim_C8 NewContainer "A" "alice" "bob" bAlice bBob
    cAlice cAliceBob (by decide) rfl rfl rfl rfl rfl (by rfl) (by rfl)
  exact ⟨h.1, h.2.1 3 wC8 rfl, h.2.2.1, h.2.2.2 2 wC8 "Z" (by rfl)⟩

/-! ### Claim C10 (Create with a dependency-bearing builder deadlocks) -/

/-- The config builder of type cfgT, dependency of the db builder. -/
def bConfigT : Builder :=
  { tag := "config", params := [], retType := "cfgT",
    body := fun _ => "configv" }

/-- The db builder, declaring one parameter of type cfgT. -/
def bDbT : Builder :=
  { tag := "db", params := ["cfgT"], retType := "dbT",
    body := fun _ => "dbv" }

/-- The world with config and db registered and nothing cached. -/
def wC10 : World :=
  { c := (Register (Register NewContainer "config" bConfigT).1 "db" bDbT).1,
    log := [], heap := [] }

/-- For contrast with the C10 finding: the same dependency-bearing
resolution performed through Get — which holds no lock while create runs —
completes, caching the config dependency and producing the db instance. -/
theorem getG_db_completes :
    getG false 8 wC10 "db" =
      ((Get 8 wC10 "db").1, Blocking.done (Get 8 wC10 "db").2)
    ∧ (Get 8 wC10 "db").2 = Except.ok { payload := "dbv", serial := 1 }
    ∧ lookupA (Get 8 wC10 "db").1.c.store "config" =
        some { payload := "configv", serial := 0 } :=
  ⟨(lockFreeAgrees 8).1 wC10 "db", by rfl, by rfl⟩

/-- C10 (code bug): the claim says Create(id) resolves the declared
parameters of its builder through Get/GetByType and thereby populates the
singleton cache for each dependency, which later Gets/Creates then see.
In the source, Create acquires the exclusive lock of the container RWMutex
and holds it (defer c.Unlock()) across create/bind/buildParams, and
resolving the first declared parameter reaches Get, whose c.RLock() on the
same non-reentrant mutex blocks forever: Create of any dependency-bearing
builder whose parameter type has a registrant deadlocks with the world
unchanged.  No successful dependency-resolving Create exists, so Create
never populates any dependency cache entry — the intended behaviour the
claim describes (and that Get exhibits, see getG_db_completes) is
unreachable through Create. -/
theorem claim_C10_code_bug (n : Nat) (w : World) (iddb : Identity)
    (bdb : Builder) (t : GoType) (ps : List GoType)
    (i : Identity) (is : List Identity)
    (hdb : lookupA w.c.defs iddb = some bdb)
    (hparams : bdb.params = t :: ps)
    (hbucket : bucketOf w.c.typeToIdentity t = i :: is) :
    CreateGo (n + 4) w iddb = (w, Blocking.deadlock) := by
  have h1 : getG true n w i = (w, Blocking.deadlock) := by
    cases n <;> rfl
  have h2 : getByTypeG true (n + 1) w t = (w, Blocking.deadlock) := by
    simp only [getByTypeG, hbucket, h1]
  have h3 : buildParamsG true (n + 1 + 1) w (t :: ps) none =
      (w, Blocking.deadlock) := by
    simp only [buildParamsG, h2]
  have h4 : bindG true (n + 1 + 1 + 1) w bdb = (w, Blocking.deadlock) := by
    simp only [bindG, hparams, h3]
  have h5 : createG true (n + 1 + 1 + 1 + 1) w iddb =
      (w, Blocking.deadlock) := by
    simp only [createG, hdb, h4]
  exact h5

/-- C10 witness: in the concrete config/db world, Create of db — whose
builder declares one cfgT parameter, with config registered for cfgT —
deadlocks with the world unchanged. -/
theorem claim_C10_code_bug_witness :
    CreateGo 8 wC10 "db" = (wC10, Blocking.deadlock) :=
  claim_C10_code_bug 4 wC10 "db" bDbT "cfgT" [] "config" []
    (by rfl) (by rfl) (by rfl)

end ObjectCommander
